import Mathlib

/-!
Verification of the Engagement Stage Reconciliation & Weighted Progress Engine
of the SecureRAG frontend (src/frontend/src/components/DocumentCard.jsx,
component OngoingProjectCard).

Shallow embedding conventions:
  * A persisted stage record `{stage, done, date, isStatic}` becomes the
    structure `Stage`; a test-checklist item `{test, done, date}` becomes
    `TestItem`.
  * Dates are modelled as integer day numbers (days since 1970-01-01, which
    was a Thursday), after the source's normalisation of both endpoints to
    midnight; thus day `d` is a Saturday iff `d % 7 = 2` and a Sunday iff
    `d % 7 = 3`.  date-fns `isWeekend` and `eachDayOfInterval` are embedded
    on that model.
  * JavaScript `Math.round` is `jsRound`: round half toward positive
    infinity.  Numeric expressions are carried in `ℚ`; every value these
    claims evaluate is far from a representability or rounding boundary of
    IEEE doubles, so the rational model agrees with the double computation.
  * The reconciliation `useEffect` becomes the pure function `reconcilePass`
    from the pair (anti-thrash ref, current stage view) and the freshly
    persisted input to the new pair plus an optional corrective write;
    `Option` models the single `updateProject` call a pass can schedule.
  * Each mutating handler becomes a pure function from its inputs to the new
    local state and/or the `updateProject` payload it issues; `none` at the
    top level models a JavaScript crash on an out-of-bounds index.
-/

namespace SecureRAG

/-- A pentest stage record as persisted in `project.pentest_stages`. -/
structure Stage where
  stage : String
  done : Bool
  date : Option String
  isStatic : Bool
deriving DecidableEq, Repr

/-- A test-checklist item as persisted in `project.tests_checklist`. -/
structure TestItem where
  test : String
  done : Bool
  date : Option String
deriving DecidableEq, Repr

/-- JavaScript Math.round: round half toward positive infinity. -/
def jsRound (q : ℚ) : ℤ := ⌊q + 1 / 2⌋

/-! ### Calendar Utility (calculateBusinessDays, lines 132-150) -/

/-- date-fns isWeekend on day numbers: day 0 (1970-01-01) was a Thursday,
so Saturday is residue 2 and Sunday residue 3 mod 7. -/
def isWeekend (d : ℤ) : Bool := d % 7 == 2 || d % 7 == 3

/-- date-fns eachDayOfInterval: every day of the closed interval, in order.
Only evaluated by the source after the `start > end` guard. -/
def eachDayOfInterval (start finish : ℤ) : List ℤ :=
  (List.range (finish + 1 - start).toNat).map (fun i : ℕ => start + (i : ℤ))

/-- calculateBusinessDays (DocumentCard.jsx lines 132-150): 0 when
start > end, else the number of non-weekend days in the closed interval.
The null-input guard of line 133 is outside this model (inputs are days). -/
def calculateBusinessDays (start finish : ℤ) : ℕ :=
  if start > finish then 0
  else ((eachDayOfInterval start finish).filter (fun d => !isWeekend d)).length

/-- Specification-side reading of a business day: a day whose weekday is
Monday through Friday. -/
def isBusinessDay (d : ℤ) : Prop := ¬(d % 7 = 2 ∨ d % 7 = 3)

instance (d : ℤ) : Decidable (isBusinessDay d) := by
  unfold isBusinessDay; infer_instance

/-! ### Canonical Stage Template (lines 153-169) -/

/-- The fixed canonical template of 15 static stage names, in order. -/
def STATIC_PENTEST_STAGES : List String :=
  ["Ticket Assigned",
   "Kickoff",
   "Accounts Received",
   "Enumeration",
   "Manual Testing",
   "Automated Testing",
   "Lateral Movement",
   "Exploitation",
   "Known CVE",
   "Compliance",
   "Reporting",
   "Shared report 1on1 to PSM",
   "Uploaded report on Sharepoint",
   "Sent Emails to Stakeholders",
   "Last Jira Ticket Closed"]

/-! ### Progress Calculator (calculateWeightedProgress, lines 310-348) -/

/-- Preparation group names (weight 10). -/
def PREPARATION_STAGES : List String := ["Kickoff", "Accounts Received"]

/-- Main-testing group names (weight 80). -/
def MAIN_TESTING_STAGES : List String :=
  ["Enumeration", "Manual Testing", "Automated Testing",
   "Lateral Movement", "Exploitation", "Known CVE", "Compliance"]

/-- Final group names (weight 10). -/
def FINAL_STAGES : List String :=
  ["Reporting", "Shared report 1on1 to PSM",
   "Uploaded report on Sharepoint", "Sent Emails to Stakeholders",
   "Last Jira Ticket Closed"]

/-- Count of completed preparation-group stages (line 322). -/
def prepCompleted (stages : List Stage) : ℕ :=
  (stages.filter fun s => PREPARATION_STAGES.contains s.stage && s.done).length

/-- Count of preparation-group stages present (line 325). -/
def prepTotal (stages : List Stage) : ℕ :=
  (stages.filter fun s => PREPARATION_STAGES.contains s.stage).length

/-- Count of completed main-testing-group stages (line 329). -/
def mainCompleted (stages : List Stage) : ℕ :=
  (stages.filter fun s => MAIN_TESTING_STAGES.contains s.stage && s.done).length

/-- Count of main-testing-group stages present (line 332). -/
def mainTotal (stages : List Stage) : ℕ :=
  (stages.filter fun s => MAIN_TESTING_STAGES.contains s.stage).length

/-- Count of completed final-group stages (line 336). -/
def finalCompleted (stages : List Stage) : ℕ :=
  (stages.filter fun s => FINAL_STAGES.contains s.stage && s.done).length

/-- Count of final-group stages present (line 339). -/
def finalTotal (stages : List Stage) : ℕ :=
  (stages.filter fun s => FINAL_STAGES.contains s.stage).length

/-- calculateWeightedProgress (lines 310-348): 10/80/10 group-weighted
percentage, each group guarded against an empty denominator.  The same
computation is inlined verbatim in handleToggleStage (lines 436-446) and
handleDeleteStage (lines 493-503). -/
def calculateWeightedProgress (stages : List Stage) : ℤ :=
  let prepPct : ℚ :=
    if prepTotal stages > 0 then (prepCompleted stages : ℚ) / (prepTotal stages : ℚ) * 10 else 0
  let mainPct : ℚ :=
    if mainTotal stages > 0 then (mainCompleted stages : ℚ) / (mainTotal stages : ℚ) * 80 else 0
  let finalPct : ℚ :=
    if finalTotal stages > 0 then (finalCompleted stages : ℚ) / (finalTotal stages : ℚ) * 10 else 0
  jsRound (prepPct + mainPct + finalPct)

/-! ### initializePentestStages (lines 184-215) -/

/-- Lookup in the `existingMap` built at lines 186-191: `Map.set` is applied
in list order, so a later record with the same name overwrites an earlier
one and `get` returns the last occurrence. -/
def existingMapGet (existingStages : List Stage) (name : String) : Option Stage :=
  existingStages.reverse.find? (fun s => s.stage == name)

/-- initializePentestStages (lines 184-215): every template name in order,
preserving the persisted record (forced isStatic) when present and creating
a fresh done=false record when absent, followed by the custom stages. -/
def initializePentestStages (existingStages : Option (List Stage)) : List Stage :=
  let ex := existingStages.getD []
  let staticStages : List Stage := STATIC_PENTEST_STAGES.map fun t =>
    match existingMapGet ex t with
    | some e => { e with isStatic := true }
    | none => { stage := t, done := false, date := none, isStatic := true }
  let customStages := ex.filter fun s => !STATIC_PENTEST_STAGES.contains s.stage
  staticStages ++ customStages

/-! ### Stage Reconciler (useEffect, lines 228-297) -/

/-- The fingerprint string of line 230: either the literal string null (for
a missing stage list, modelled as `none`) or the JSON of the (name, done)
pairs in input order, modelled by that list itself (JSON.stringify is
injective on it). -/
def stagesKey (input : Option (List Stage)) : Option (List (String × Bool)) :=
  input.map (fun l => l.map fun s => (s.stage, s.done))

/-- The component state the reconciliation effect reads and writes:
`lastProcessedStagesRef.current` (initially the JavaScript null, `none`,
which differs from every fingerprint) and the `pentestStages` view. -/
structure ReconcileState where
  lastProcessedStagesRef : Option (Option (List (String × Bool)))
  pentestStages : List Stage
deriving DecidableEq, Repr

/-- Result of one reconciliation pass: the new component state and the
payload of the scheduled corrective `updateProject` call, if any (a pass
schedules at most one). -/
structure ReconcileOutcome where
  state : ReconcileState
  write : Option (List Stage × ℤ)
deriving DecidableEq, Repr

/-- Line 241-245: tag every persisted record with isStatic computed from
template membership, never adding records. -/
def existingStages (projectStages : List Stage) : List Stage :=
  projectStages.map fun s =>
    { s with isStatic := STATIC_PENTEST_STAGES.contains s.stage }

/-- Line 248: the static stages actually present. -/
def staticStagesPresent (projectStages : List Stage) : List Stage :=
  (existingStages projectStages).filter fun s => s.isStatic

/-- Line 249: the custom stages. -/
def customStages (projectStages : List Stage) : List Stage :=
  (existingStages projectStages).filter fun s => !s.isStatic

/-- Lines 252-254: the present static stages reordered into template order
(the `.filter(Boolean)` drops the `undefined` of each missing template
name, modelled by filterMap over an Option-returning find). -/
def reorderedStaticStages (projectStages : List Stage) : List Stage :=
  STATIC_PENTEST_STAGES.filterMap fun t =>
    (staticStagesPresent projectStages).find? fun s => s.stage == t

/-- Line 256: the candidate view. -/
def updatedStages (projectStages : List Stage) : List Stage :=
  reorderedStaticStages projectStages ++ customStages projectStages

/-- Lines 259-261: the static-stage name sequence of the persisted input. -/
def staticStagesInProject (projectStages : List Stage) : List String :=
  (projectStages.filter fun s => STATIC_PENTEST_STAGES.contains s.stage).map Stage.stage

/-- Line 262: the static-stage name sequence of the candidate view. -/
def staticStagesInOrder (projectStages : List Stage) : List String :=
  (reorderedStaticStages projectStages).map Stage.stage

/-- Lines 264-265.  The JavaScript `.some` compares positions of the first
list against the second; as the length comparison comes first in the
disjunction, it is equivalent to `.any` over the zip. -/
def orderChanged (projectStages : List Stage) : Bool :=
  (staticStagesInProject projectStages).length != (staticStagesInOrder projectStages).length ||
    (((staticStagesInProject projectStages).zip (staticStagesInOrder projectStages)).any
      fun p => p.1 != p.2)

/-- Lines 275-286: the corrective write scheduled when a pure reordering was
detected, carrying the candidate view and the progress recomputed at lines
276-278 (completed count over total count, times 100, rounded). -/
def correctiveWrite (projectStages : List Stage) : Option (List Stage × ℤ) :=
  if orderChanged projectStages ∧ projectStages.length > 0 ∧
      (staticStagesInProject projectStages).length =
        (staticStagesInOrder projectStages).length then
    let completed := ((updatedStages projectStages).filter fun s => s.done).length
    let total := (updatedStages projectStages).length
    let newProgress : ℤ :=
      if total > 0 then jsRound ((completed : ℚ) / (total : ℚ) * 100) else 0
    some (updatedStages projectStages, newProgress)
  else none

/-- One run of the reconciliation useEffect (lines 228-297) for a fresh
`project.pentest_stages` value.  The `stagesChanged` comparison of line 268
only skips a redundant setState; the resulting view is `updatedStages`
either way, so it is not modelled separately. -/
def reconcilePass (st : ReconcileState) (input : Option (List Stage)) : ReconcileOutcome :=
  let currentStagesKey := stagesKey input
  if st.lastProcessedStagesRef = some currentStagesKey then
    { state := st, write := none }
  else
    match input with
    | some projectStages =>
      { state := { lastProcessedStagesRef := some currentStagesKey,
                   pentestStages := updatedStages projectStages },
        write := correctiveWrite projectStages }
    | none =>
      let initialStages : List Stage := STATIC_PENTEST_STAGES.map fun t =>
        { stage := t, done := false, date := none, isStatic := true }
      { state := { lastProcessedStagesRef := some currentStagesKey,
                   pentestStages := initialStages },
        write := none }

/-! ### Lifecycle Controller handlers -/

/-- handleToggleStage (lines 423-432), state transformation: flip done at
the index, set date to now on the transition to done and clear it to null
on the transition to undone.  `none` models the TypeError a JavaScript
out-of-bounds index raises. -/
def handleToggleStage (pentestStages : List Stage) (index : ℕ) (now : String) :
    Option (List Stage) :=
  match pentestStages[index]? with
  | none => none
  | some s =>
    let newDone := !s.done
    some (pentestStages.set index
      { s with done := newDone, date := if newDone then some now else none })

/-- handleToggleTest (lines 387-394), state transformation: flip done at the
index and set date to now on the transition to done; the source has no else
branch, so on the transition to undone the previous date is retained. -/
def handleToggleTest (tests : List TestItem) (index : ℕ) (now : String) :
    Option (List TestItem) :=
  match tests[index]? with
  | none => none
  | some t =>
    let newDone := !t.done
    some (tests.set index
      { t with done := newDone, date := if newDone then some now else t.date })

/-- handleDeleteStage (lines 483-515): refuse (alert, no write, state kept)
when the stage is static, else remove the index (the source filters on
position) and schedule a write of the new list with its freshly computed
weighted progress (the inline computation of lines 493-503 is
calculateWeightedProgress verbatim). -/
def handleDeleteStage (pentestStages : List Stage) (index : ℕ) :
    Option (List Stage × Option (List Stage × ℤ)) :=
  match pentestStages[index]? with
  | none => none
  | some s =>
    if s.isStatic then some (pentestStages, none)
    else
      let updatedStages :=
        ((pentestStages.enum.filter fun p => p.1 != index).map Prod.snd)
      some (updatedStages, some (updatedStages, calculateWeightedProgress updatedStages))

/-- The payload persisted by handleCompleteProject. -/
structure CompleteWrite where
  status : String
  completed_date : ℤ
  leave_days : ℤ
  business_days_worked : ℤ
deriving DecidableEq, Repr

/-- handleCompleteProject (lines 521-544): business days between start and
now minus leave days (0 when start_date is null), clamped at 0; persists
status past and the completion day.  `leaveDays || 0` only renormalises a
missing value and is the identity on the integers modelled here. -/
def handleCompleteProject (start_date : Option ℤ) (now : ℤ) (leaveDays : ℤ) :
    CompleteWrite :=
  let businessDays : ℤ :=
    match start_date with
    | some startDate => (calculateBusinessDays startDate now : ℤ) - leaveDays
    | none => 0
  { status := "past",
    completed_date := now,
    leave_days := leaveDays,
    business_days_worked := max 0 businessDays }

/-! ### Test fixtures -/

/-- The full canonical template as a stage list, with the named stages done. -/
def fullTemplateWith (doneNames : List String) : List Stage :=
  STATIC_PENTEST_STAGES.map fun t => ⟨t, doneNames.contains t, none, true⟩

/-! ### Helper lemmas: calendar -/

lemma not_isWeekend_iff (d : ℤ) : (!isWeekend d) = true ↔ isBusinessDay d := by
  simp [isWeekend, isBusinessDay, not_or]

lemma businessDays_aux :
    ∀ (n : ℕ) (s : ℤ),
      (((List.range n).map (fun i : ℕ => s + (i : ℤ))).filter (fun d => !isWeekend d)).length =
        ((Finset.Icc s (s + n - 1)).filter isBusinessDay).card := by
  intro n
  induction n with
  | zero =>
    intro s
    rw [Finset.Icc_eq_empty (by omega)]
    simp
  | succ n ih =>
    intro s
    have hIcc : Finset.Icc s (s + (n + 1 : ℕ) - 1) = insert (s + n) (Finset.Icc s (s + n - 1)) := by
      ext x
      simp only [Finset.mem_Icc, Finset.mem_insert]
      omega
    have hnot : (s + n) ∉ (Finset.Icc s (s + n - 1)).filter isBusinessDay := by
      intro hmem
      rw [Finset.mem_filter, Finset.mem_Icc] at hmem
      omega
    rw [List.range_succ, List.map_append, List.filter_append, List.length_append, ih s, hIcc,
      Finset.filter_insert]
    by_cases hb : isBusinessDay (s + n)
    · rw [if_pos hb, Finset.card_insert_of_not_mem hnot]
      have : (!isWeekend (s + n)) = true := (not_isWeekend_iff _).mpr hb
      simp [this]
    · rw [if_neg hb]
      have : (!isWeekend (s + n)) = false := by
        by_contra hc
        exact hb ((not_isWeekend_iff _).mp (by revert hc; cases (!isWeekend (s + (n : ℤ))) <;> simp))
      simp [this]

/-- The business-day count of the source, for start ≤ end, is the number of
Monday-through-Friday days of the closed interval. -/
lemma calculateBusinessDays_eq_card {s e : ℤ} (h : s ≤ e) :
    calculateBusinessDays s e = ((Finset.Icc s e).filter isBusinessDay).card := by
  unfold calculateBusinessDays eachDayOfInterval
  rw [if_neg (not_lt.mpr h), businessDays_aux,
    show s + (((e + 1 - s).toNat : ℕ) : ℤ) - 1 = e from by omega]

/-! ### C8 -/

/-- C8: businessDaysBetween returns 0 when start is after end, and otherwise
counts the Monday-to-Friday days of the closed interval; Monday to Friday of
one week (days 4 to 8 of the epoch) gives 5, Saturday to Sunday (days 9 to
10) gives 0, and a reversed pair gives 0. -/
theorem c8_businessDaysBetween (s e : ℤ) :
    (s > e → calculateBusinessDays s e = 0) ∧
    (s ≤ e → calculateBusinessDays s e = ((Finset.Icc s e).filter isBusinessDay).card) ∧
    calculateBusinessDays 4 8 = 5 ∧
    calculateBusinessDays 9 10 = 0 ∧
    calculateBusinessDays 8 4 = 0 := by
  refine ⟨fun h => ?_, fun h => calculateBusinessDays_eq_card h, by decide, by decide, by decide⟩
  unfold calculateBusinessDays
  rw [if_pos h]

/-- Witness: C8 applied to the Monday-to-Friday week, discharging start ≤ end. -/
theorem c8_witness :
    calculateBusinessDays 4 8 = ((Finset.Icc (4 : ℤ) 8).filter isBusinessDay).card :=
  (c8_businessDaysBetween 4 8).2.1 (by decide)

/-! ### C7 -/

/-- C7: completeEngagement persists status past, the completion time, the
given leave days, and businessDaysWorked = max(0, businessDaysBetween(start,
now) − leaveDays); with start a Monday (day 4), now the same week's Friday
(day 8) and one leave day, businessDaysWorked is 4. -/
theorem c7_completeEngagement (startDate now leaveDays : ℤ) (h : startDate ≤ now) :
    handleCompleteProject (some startDate) now leaveDays =
      { status := "past", completed_date := now, leave_days := leaveDays,
        business_days_worked :=
          max 0 ((((Finset.Icc startDate now).filter isBusinessDay).card : ℤ) - leaveDays) } ∧
    handleCompleteProject (some 4) 8 1 =
      { status := "past", completed_date := 8, leave_days := 1, business_days_worked := 4 } := by
  refine ⟨?_, by decide⟩
  simp only [handleCompleteProject]
  rw [calculateBusinessDays_eq_card h]

/-- Witness: C7 applied to the Monday-to-Friday example. -/
theorem c7_witness :
    handleCompleteProject (some 4) 8 1 =
      { status := "past", completed_date := 8, leave_days := 1,
        business_days_worked :=
          max 0 ((((Finset.Icc (4 : ℤ) 8).filter isBusinessDay).card : ℤ) - 1) } ∧
    handleCompleteProject (some 4) 8 1 =
      { status := "past", completed_date := 8, leave_days := 1, business_days_worked := 4 } :=
  c7_completeEngagement 4 8 1 (by decide)

/-! ### C2 -/

/-- C2: on any stage list whose three weighted groups are fully represented
with totals (2, 7, 5), the weighted progress is the rounded 10/80/10 sum of
the group completion ratios; the full template done gives 100, exactly
Kickoff done gives 5, and exactly three main-testing stages done gives 34. -/
theorem c2_weightedProgress (stages : List Stage)
    (hp : prepTotal stages = 2) (hm : mainTotal stages = 7) (hf : finalTotal stages = 5) :
    calculateWeightedProgress stages =
      round ((prepCompleted stages : ℚ) / 2 * 10 + (mainCompleted stages : ℚ) / 7 * 80 +
        (finalCompleted stages : ℚ) / 5 * 10) ∧
    calculateWeightedProgress (fullTemplateWith STATIC_PENTEST_STAGES) = 100 ∧
    calculateWeightedProgress (fullTemplateWith ["Kickoff"]) = 5 ∧
    calculateWeightedProgress
      (fullTemplateWith ["Enumeration", "Manual Testing", "Automated Testing"]) = 34 := by
  have key : ∀ l : List Stage, prepTotal l = 2 → mainTotal l = 7 → finalTotal l = 5 →
      calculateWeightedProgress l =
        round ((prepCompleted l : ℚ) / 2 * 10 + (mainCompleted l : ℚ) / 7 * 80 +
          (finalCompleted l : ℚ) / 5 * 10) := by
    intro l hp hm hf
    unfold calculateWeightedProgress jsRound
    rw [hp, hm, hf, round_eq]
    norm_num
  refine ⟨key stages hp hm hf, ?_, ?_, ?_⟩
  · rw [key _ (by decide) (by decide) (by decide),
      show prepCompleted (fullTemplateWith STATIC_PENTEST_STAGES) = 2 from by decide,
      show mainCompleted (fullTemplateWith STATIC_PENTEST_STAGES) = 7 from by decide,
      show finalCompleted (fullTemplateWith STATIC_PENTEST_STAGES) = 5 from by decide,
      round_eq]
    norm_num
  · rw [key _ (by decide) (by decide) (by decide),
      show prepCompleted (fullTemplateWith ["Kickoff"]) = 1 from by decide,
      show mainCompleted (fullTemplateWith ["Kickoff"]) = 0 from by decide,
      show finalCompleted (fullTemplateWith ["Kickoff"]) = 0 from by decide,
      round_eq]
    norm_num
  · rw [key _ (by decide) (by decide) (by decide),
      show prepCompleted
        (fullTemplateWith ["Enumeration", "Manual Testing", "Automated Testing"]) = 0 from by decide,
      show mainCompleted
        (fullTemplateWith ["Enumeration", "Manual Testing", "Automated Testing"]) = 3 from by decide,
      show finalCompleted
        (fullTemplateWith ["Enumeration", "Manual Testing", "Automated Testing"]) = 0 from by decide,
      round_eq]
    norm_num

/-- Witness: C2 applied to the fully done template, discharging the three
group-total hypotheses. -/
theorem c2_witness :
    calculateWeightedProgress (fullTemplateWith STATIC_PENTEST_STAGES) =
      round ((prepCompleted (fullTemplateWith STATIC_PENTEST_STAGES) : ℚ) / 2 * 10 +
        (mainCompleted (fullTemplateWith STATIC_PENTEST_STAGES) : ℚ) / 7 * 80 +
        (finalCompleted (fullTemplateWith STATIC_PENTEST_STAGES) : ℚ) / 5 * 10) ∧
    calculateWeightedProgress (fullTemplateWith STATIC_PENTEST_STAGES) = 100 ∧
    calculateWeightedProgress (fullTemplateWith ["Kickoff"]) = 5 ∧
    calculateWeightedProgress
      (fullTemplateWith ["Enumeration", "Manual Testing", "Automated Testing"]) = 34 :=
  c2_weightedProgress (fullTemplateWith STATIC_PENTEST_STAGES)
    (by decide) (by decide) (by decide)

/-! ### C6 -/

/-- A test item that has been marked done in the past. -/
def doneTestItem : TestItem := { test := "sqli probe", done := true, date := some "day1" }

/-- C6 counterexample: toggling a done test item back to undone leaves its
completion date in place, so done = false does not imply completedAt = null
for Test Items; the claim fails as stated. -/
theorem c6_counterexample :
    handleToggleTest [doneTestItem] 0 "day2" =
      some [{ test := "sqli probe", done := false, date := some "day1" }] := by
  decide

/-- C6 amended: toggling a Stage preserves the completion invariant in both
directions (done sets completedAt to now, undone clears it to null), while
toggling a Test Item sets completedAt on the transition to done but retains
the previous completedAt on the transition to undone. -/
theorem c6_amended (stages : List Stage) (tests : List TestItem) (i j : ℕ)
    (now : String) (stages' : List Stage) (tests' : List TestItem)
    (s s' : Stage) (t t' : TestItem)
    (hs : stages[i]? = some s) (ht : tests[j]? = some t)
    (hs' : handleToggleStage stages i now = some stages')
    (ht' : handleToggleTest tests j now = some tests')
    (hgs : stages'[i]? = some s') (hgt : tests'[j]? = some t') :
    (s'.done = !s.done) ∧
    (s'.done = true → s'.date = some now) ∧
    (s'.done = false → s'.date = none) ∧
    (t'.done = !t.done) ∧
    (t'.done = true → t'.date = some now) ∧
    (t'.done = false → t'.date = t.date) := by
  have hi : i < stages.length := by
    by_contra hc
    rw [List.getElem?_eq_none (by omega)] at hs
    exact Option.noConfusion hs
  have hj : j < tests.length := by
    by_contra hc
    rw [List.getElem?_eq_none (by omega)] at ht
    exact Option.noConfusion ht
  simp only [handleToggleStage, hs] at hs'
  simp only [handleToggleTest, ht] at ht'
  obtain rfl : stages' = stages.set i
      { s with done := !s.done, date := if !s.done then some now else none } :=
    (Option.some.inj hs').symm
  obtain rfl : tests' = tests.set j
      { t with done := !t.done, date := if !t.done then some now else t.date } :=
    (Option.some.inj ht').symm
  rw [List.getElem?_set_self (by simpa using hi)] at hgs
  rw [List.getElem?_set_self (by simpa using hj)] at hgt
  obtain rfl : s' = { s with done := !s.done, date := if !s.done then some now else none } :=
    (Option.some.inj hgs).symm
  obtain rfl : t' = { t with done := !t.done, date := if !t.done then some now else t.date } :=
    (Option.some.inj hgt).symm
  cases hd : s.done <;> cases he : t.done <;> simp [hd, he]

/-- Witness: C6 amended applied to one done stage and one done test item. -/
theorem c6_amended_witness :
    ((false : Bool) = !true) ∧
    (false = true → (none : Option String) = some "day2") ∧
    (false = false → (none : Option String) = (none : Option String)) ∧
    ((false : Bool) = !true) ∧
    (false = true → (some "day1" : Option String) = some "day2") ∧
    (false = false → (some "day1" : Option String) = some "day1") :=
  c6_amended [{ stage := "Kickoff", done := true, date := some "day0", isStatic := true }]
    [doneTestItem] 0 0 "day2"
    [{ stage := "Kickoff", done := false, date := none, isStatic := true }]
    [{ test := "sqli probe", done := false, date := some "day1" }]
    { stage := "Kickoff", done := true, date := some "day0", isStatic := true }
    { stage := "Kickoff", done := false, date := none, isStatic := true }
    doneTestItem
    { test := "sqli probe", done := false, date := some "day1" }
    (by decide) (by decide) (by decide) (by decide) (by decide) (by decide)

/-! ### C9 -/

lemma enumFrom_filter_gt (l : List Stage) :
    ∀ (m k : ℕ), k < m → (l.enumFrom m).filter (fun p => p.1 != k) = l.enumFrom m := by
  induction l with
  | nil => intro m k _; rfl
  | cons a l ih =>
    intro m k hk
    rw [List.enumFrom_cons, List.filter_cons, if_pos (by simp; omega), ih (m + 1) k (by omega)]

lemma enumFrom_filter_ne_map_snd (l : List Stage) :
    ∀ (n i : ℕ), ((l.enumFrom n).filter fun p => p.1 != (n + i)).map Prod.snd = l.eraseIdx i := by
  induction l with
  | nil => intro n i; rfl
  | cons a l ih =>
    intro n i
    cases i with
    | zero =>
      rw [List.enumFrom_cons, List.filter_cons, if_neg (by simp),
        enumFrom_filter_gt l (n + 1) (n + 0) (by omega), List.enumFrom_map_snd]
      rfl
    | succ i =>
      rw [List.enumFrom_cons, List.filter_cons, if_pos (by simp), List.map_cons]
      have : ∀ p : ℕ × Stage, (p.1 != (n + (i + 1))) = (p.1 != ((n + 1) + i)) := by
        intro p
        have : n + (i + 1) = (n + 1) + i := by omega
        rw [this]
      rw [List.filter_congr (fun p _ => this p), ih (n + 1) i]
      rfl

/-- The positional filter of handleDeleteStage removes exactly the stage at
the given index. -/
lemma deleteStage_filter_eq_eraseIdx (l : List Stage) (i : ℕ) :
    ((l.enum.filter fun p => p.1 != i).map Prod.snd) = l.eraseIdx i := by
  have h0 : (0 : ℕ) + i = i := by omega
  have := enumFrom_filter_ne_map_snd l 0 i
  rw [h0] at this
  exact this

/-- C9: deleteStage on a static stage is refused before any persistence call
(state unchanged, no write); on a non-static stage it removes exactly that
stage, recomputes the weighted progress, and persists both. -/
theorem c9_deleteStage (stages : List Stage) (i : ℕ) (s : Stage)
    (hget : stages[i]? = some s) :
    (s.isStatic = true → handleDeleteStage stages i = some (stages, none)) ∧
    (s.isStatic = false →
      handleDeleteStage stages i =
        some (stages.eraseIdx i, some (stages.eraseIdx i,
          calculateWeightedProgress (stages.eraseIdx i)))) := by
  constructor
  · intro hst
    simp only [handleDeleteStage, hget, hst, if_pos]
  · intro hst
    simp only [handleDeleteStage, hget, hst, Bool.false_eq_true, if_false,
      deleteStage_filter_eq_eraseIdx]

/-- Witness: C9 applied to a one-element static list (refusal) and to a
one-element custom list (removal with recomputed progress). -/
theorem c9_witness :
    handleDeleteStage [{ stage := "Kickoff", done := false, date := none, isStatic := true }] 0 =
      some ([{ stage := "Kickoff", done := false, date := none, isStatic := true }], none) ∧
    handleDeleteStage [{ stage := "extra sweep", done := true, date := none, isStatic := false }] 0 =
      some ([], some ([], calculateWeightedProgress [])) :=
  ⟨(c9_deleteStage [{ stage := "Kickoff", done := false, date := none, isStatic := true }] 0
      { stage := "Kickoff", done := false, date := none, isStatic := true } (by decide)).1 rfl,
   (c9_deleteStage [{ stage := "extra sweep", done := true, date := none, isStatic := false }] 0
      { stage := "extra sweep", done := true, date := none, isStatic := false } (by decide)).2 rfl⟩

/-! ### Helper lemmas: reconciler -/

lemma contains_eq_decide_mem (l : List String) (a : String) :
    l.contains a = decide (a ∈ l) := by
  simp [List.contains]

lemma reconcilePass_skip {st : ReconcileState} {input : Option (List Stage)}
    (h : st.lastProcessedStagesRef = some (stagesKey input)) :
    reconcilePass st input = { state := st, write := none } := by
  unfold reconcilePass
  rw [if_pos h]

lemma reconcilePass_processSome {st : ReconcileState} {l : List Stage}
    (h : st.lastProcessedStagesRef ≠ some (stagesKey (some l))) :
    reconcilePass st (some l) =
      { state := { lastProcessedStagesRef := some (stagesKey (some l)),
                   pentestStages := updatedStages l },
        write := correctiveWrite l } := by
  unfold reconcilePass
  rw [if_neg h]

lemma reconcilePass_ref (st : ReconcileState) (input : Option (List Stage)) :
    (reconcilePass st input).state.lastProcessedStagesRef = some (stagesKey input) := by
  unfold reconcilePass
  by_cases h : st.lastProcessedStagesRef = some (stagesKey input)
  · rw [if_pos h]
    exact h
  · rw [if_neg h]
    cases input <;> rfl

lemma staticStagesPresent_eq (l : List Stage) :
    staticStagesPresent l =
      (l.filter fun s => STATIC_PENTEST_STAGES.contains s.stage).map
        fun s => { s with isStatic := STATIC_PENTEST_STAGES.contains s.stage } := by
  unfold staticStagesPresent existingStages
  rw [List.filter_map]
  rfl

lemma staticStagesPresent_names (l : List Stage) :
    (staticStagesPresent l).map Stage.stage = staticStagesInProject l := by
  unfold staticStagesInProject
  rw [staticStagesPresent_eq, List.map_map]
  rfl

lemma customStages_names (l : List Stage) :
    (customStages l).map Stage.stage =
      (l.filter fun s => !STATIC_PENTEST_STAGES.contains s.stage).map Stage.stage := by
  unfold customStages existingStages
  rw [List.filter_map, List.map_map]
  rfl

lemma filterMap_find?_names (tl : List String) (L : List Stage) :
    ((tl.filterMap fun t => L.find? fun s => s.stage == t).map Stage.stage) =
      tl.filter fun t => (L.map Stage.stage).contains t := by
  induction tl with
  | nil => rfl
  | cons t tl ih =>
    rw [List.filterMap_cons, List.filter_cons]
    cases hf : L.find? (fun s => s.stage == t) with
    | none =>
      have hnm : ¬ t ∈ L.map Stage.stage := by
        intro hc
        obtain ⟨s, hsL, hst⟩ := List.mem_map.mp hc
        exact absurd (by simp [hst]) (List.find?_eq_none.mp hf s hsL)
      rw [contains_eq_decide_mem, decide_eq_false hnm]
      simpa using ih
    | some s =>
      have hst : s.stage = t := by
        have := List.find?_some hf
        simpa using this
      have hmem : t ∈ L.map Stage.stage :=
        List.mem_map.mpr ⟨s, List.mem_of_find?_eq_some hf, hst⟩
      rw [contains_eq_decide_mem, decide_eq_true hmem, List.map_cons, ih, hst]
      simp

lemma staticStagesInOrder_eq (l : List Stage) :
    staticStagesInOrder l =
      STATIC_PENTEST_STAGES.filter fun t => (staticStagesInProject l).contains t := by
  unfold staticStagesInOrder reorderedStaticStages
  rw [filterMap_find?_names, staticStagesPresent_names]

lemma mem_staticStagesInProject {l : List Stage} {t : String} :
    t ∈ staticStagesInProject l ↔
      t ∈ l.map Stage.stage ∧ t ∈ STATIC_PENTEST_STAGES := by
  unfold staticStagesInProject
  constructor
  · intro h
    obtain ⟨s, hsl, hst⟩ := List.mem_map.mp h
    obtain ⟨hsl', hcond⟩ := List.mem_filter.mp hsl
    refine ⟨List.mem_map.mpr ⟨s, hsl', hst⟩, ?_⟩
    rw [contains_eq_decide_mem] at hcond
    rw [← hst]
    exact of_decide_eq_true hcond
  · rintro ⟨hmem, htmpl⟩
    obtain ⟨s, hsl, hst⟩ := List.mem_map.mp hmem
    refine List.mem_map.mpr ⟨s, List.mem_filter.mpr ⟨hsl, ?_⟩, hst⟩
    rw [contains_eq_decide_mem]
    exact decide_eq_true (hst ▸ htmpl)

lemma staticStagesInOrder_spec (l : List Stage) :
    staticStagesInOrder l =
      STATIC_PENTEST_STAGES.filter fun t => (l.map Stage.stage).contains t := by
  rw [staticStagesInOrder_eq]
  refine List.filter_congr ?_
  intro t ht
  rw [contains_eq_decide_mem, contains_eq_decide_mem]
  by_cases hm : t ∈ l.map Stage.stage
  · rw [decide_eq_true hm, decide_eq_true (mem_staticStagesInProject.mpr ⟨hm, ht⟩)]
  · rw [decide_eq_false hm, decide_eq_false (fun hc => hm (mem_staticStagesInProject.mp hc).1)]

lemma mem_updatedStages_names {l : List Stage} {x : String}
    (h : x ∈ (updatedStages l).map Stage.stage) : x ∈ l.map Stage.stage := by
  unfold updatedStages at h
  rw [List.map_append, List.mem_append] at h
  rcases h with h | h
  · obtain ⟨s, hs, hsx⟩ := List.mem_map.mp h
    obtain ⟨t, _, hf⟩ := List.mem_filterMap.mp hs
    have hsP : s ∈ staticStagesPresent l := List.mem_of_find?_eq_some hf
    rw [staticStagesPresent_eq] at hsP
    obtain ⟨s', hs'l, hs's⟩ := List.mem_map.mp hsP
    refine List.mem_map.mpr ⟨s', (List.mem_filter.mp hs'l).1, ?_⟩
    rw [← hsx, ← hs's]
  · rw [customStages_names] at h
    obtain ⟨s, hsl, hsx⟩ := List.mem_map.mp h
    exact List.mem_map.mpr ⟨s, (List.mem_filter.mp hsl).1, hsx⟩

lemma updatedStages_length {l : List Stage}
    (hlen : (staticStagesInProject l).length = (staticStagesInOrder l).length) :
    (updatedStages l).length = l.length := by
  unfold updatedStages
  rw [List.length_append]
  have h1 : (staticStagesInOrder l).length = (reorderedStaticStages l).length := by
    unfold staticStagesInOrder
    rw [List.length_map]
  have h2 : (staticStagesInProject l).length = (staticStagesPresent l).length := by
    rw [← staticStagesPresent_names, List.length_map]
  have h3 : (existingStages l).length = l.length := by
    unfold existingStages
    rw [List.length_map]
  have h4 := List.length_eq_length_filter_add (l := existingStages l) (fun s => s.isStatic)
  have h5 : (customStages l).length =
      ((existingStages l).filter (fun s => !s.isStatic)).length := rfl
  have h6 : (staticStagesPresent l).length =
      ((existingStages l).filter (fun s => s.isStatic)).length := rfl
  omega

/-! ### C4 -/

/-- C4: a second reconciliation pass on the same persisted input leaves the
component state (the candidate view included) untouched and schedules no
second corrective write: the fingerprint guard skips all processing. -/
theorem c4_reconcilerIdempotent (st : ReconcileState) (input : Option (List Stage)) :
    (reconcilePass (reconcilePass st input).state input).state.pentestStages =
      (reconcilePass st input).state.pentestStages ∧
    (reconcilePass (reconcilePass st input).state input).write = none ∧
    (reconcilePass (reconcilePass st input).state input).state =
      (reconcilePass st input).state := by
  rw [reconcilePass_skip (reconcilePass_ref st input)]
  exact ⟨rfl, rfl, rfl⟩

/-! ### C5 -/

/-- C5: a reconciliation pass never invents a stage: any template name
absent from the persisted input is absent from the pass's output view, so a
deleted static stage stays deleted. -/
theorem c5_noResurrection (projectStages view0 : List Stage) (t : String)
    (hmem : t ∈ STATIC_PENTEST_STAGES)
    (habs : ¬ t ∈ projectStages.map Stage.stage) :
    ¬ t ∈ ((reconcilePass { lastProcessedStagesRef := none, pentestStages := view0 }
      (some projectStages)).state.pentestStages.map Stage.stage) := by
  rw [reconcilePass_processSome (by simp)]
  intro hc
  exact habs (mem_updatedStages_names hc)

/-- Witness: C5 applied to a list from which Kickoff was deleted. -/
theorem c5_witness :
    ¬ "Kickoff" ∈ ((reconcilePass { lastProcessedStagesRef := none, pentestStages := [] }
      (some [{ stage := "Ticket Assigned", done := true, date := none, isStatic := true }])).state.pentestStages.map
        Stage.stage) :=
  c5_noResurrection
    [{ stage := "Ticket Assigned", done := true, date := none, isStatic := true }] []
    "Kickoff" (by decide) (by decide)

/-! ### C10 -/

/-- The record initializePentestStages builds for one template name. -/
def templateEntry (ex : List Stage) (t : String) : Stage :=
  match existingMapGet ex t with
  | some e => { e with isStatic := true }
  | none => { stage := t, done := false, date := none, isStatic := true }

lemma initializePentestStages_some (input : List Stage) :
    initializePentestStages (some input) =
      STATIC_PENTEST_STAGES.map (templateEntry input) ++
        input.filter fun s => !STATIC_PENTEST_STAGES.contains s.stage := rfl

lemma templateEntry_stage (ex : List Stage) (t : String) :
    (templateEntry ex t).stage = t := by
  unfold templateEntry
  cases h : existingMapGet ex t with
  | none => rfl
  | some e =>
    have := List.find?_some h
    simpa using this

lemma existingMapGet_eq_none {input : List Stage} {t : String}
    (habs : ¬ t ∈ input.map Stage.stage) : existingMapGet input t = none := by
  unfold existingMapGet
  rw [List.find?_eq_none]
  intro s hs
  simp only [beq_iff_eq]
  intro hc
  exact habs (List.mem_map.mpr ⟨s, List.mem_reverse.mp hs, hc⟩)

/-- C10: the initial in-memory view always carries every template stage
name; a static stage missing from the persisted input reappears as a fresh
done=false entry while a present one keeps its record (isStatic forced);
the custom stages follow the 15 statics in insertion order.  The
reconciliation pass, in contrast, does not re-add the missing static. -/
theorem c10_initializeRestoresStatics (input : List Stage) (t : String)
    (hmem : t ∈ STATIC_PENTEST_STAGES) :
    t ∈ (initializePentestStages (some input)).map Stage.stage ∧
    (¬ t ∈ input.map Stage.stage →
      ({ stage := t, done := false, date := none, isStatic := true } : Stage) ∈
        initializePentestStages (some input)) ∧
    (∀ e, existingMapGet input t = some e →
      ({ e with isStatic := true } : Stage) ∈ initializePentestStages (some input)) ∧
    ((initializePentestStages (some input)).drop STATIC_PENTEST_STAGES.length =
      input.filter fun s => !STATIC_PENTEST_STAGES.contains s.stage) ∧
    (¬ t ∈ input.map Stage.stage →
      ¬ t ∈ ((reconcilePass { lastProcessedStagesRef := none, pentestStages := [] }
        (some input)).state.pentestStages.map Stage.stage)) := by
  refine ⟨?_, ?_, ?_, ?_, ?_⟩
  · rw [initializePentestStages_some, List.map_append, List.mem_append, List.map_map]
    left
    have : STATIC_PENTEST_STAGES.map (Stage.stage ∘ templateEntry input) =
        STATIC_PENTEST_STAGES := by
      have := List.map_congr_left
        (l := STATIC_PENTEST_STAGES)
        (f := Stage.stage ∘ templateEntry input) (g := id)
        (fun a _ => templateEntry_stage input a)
      rw [this, List.map_id]
    rw [this]
    exact hmem
  · intro habs
    rw [initializePentestStages_some, List.mem_append]
    left
    refine List.mem_map.mpr ⟨t, hmem, ?_⟩
    unfold templateEntry
    rw [existingMapGet_eq_none habs]
  · intro e he
    rw [initializePentestStages_some, List.mem_append]
    left
    refine List.mem_map.mpr ⟨t, hmem, ?_⟩
    unfold templateEntry
    rw [he]
  · rw [initializePentestStages_some, List.drop_left' (by rw [List.length_map])]
  · intro habs
    rw [reconcilePass_processSome (by simp)]
    intro hc
    exact habs (mem_updatedStages_names hc)

/-- Witness: C10 applied to a persisted list holding only a custom stage, so
Kickoff is missing and gets re-added by initializePentestStages. -/
theorem c10_witness :
    "Kickoff" ∈ (initializePentestStages
      (some [{ stage := "extra sweep", done := false, date := none, isStatic := false }])).map
        Stage.stage ∧
    ({ stage := "Kickoff", done := false, date := none, isStatic := true } : Stage) ∈
      initializePentestStages
        (some [{ stage := "extra sweep", done := false, date := none, isStatic := false }]) :=
  ⟨(c10_initializeRestoresStatics
      [{ stage := "extra sweep", done := false, date := none, isStatic := false }]
      "Kickoff" (by decide)).1,
   (c10_initializeRestoresStatics
      [{ stage := "extra sweep", done := false, date := none, isStatic := false }]
      "Kickoff" (by decide)).2.1 (by decide)⟩

/-! ### Helper lemmas: order-change detection -/

lemma zip_any_ne :
    ∀ {l m : List String}, l.length = m.length → l ≠ m →
      ((l.zip m).any fun p => p.1 != p.2) = true := by
  intro l
  induction l with
  | nil =>
    intro m hlen hne
    cases m with
    | nil => exact absurd rfl hne
    | cons b m' => simp at hlen
  | cons a l ih =>
    intro m hlen hne
    cases m with
    | nil => simp at hlen
    | cons b m' =>
      rw [List.zip_cons_cons, List.any_cons]
      by_cases hab : a = b
      · subst hab
        have hne' : l ≠ m' := fun h => hne (by rw [h])
        rw [ih (by simpa using hlen) hne']
        simp
      · have : (a != b) = true := by simp [hab]
        rw [this]
        simp

lemma staticStages_length_eq {l : List Stage}
    (hnd : (staticStagesInProject l).Nodup) :
    (staticStagesInProject l).length = (staticStagesInOrder l).length := by
  have hndOrder : (staticStagesInOrder l).Nodup := by
    rw [staticStagesInOrder_eq]
    exact List.Nodup.filter _ (by decide)
  have hiff : ∀ a, a ∈ staticStagesInProject l ↔ a ∈ staticStagesInOrder l := by
    intro a
    rw [staticStagesInOrder_spec, List.mem_filter, mem_staticStagesInProject]
    constructor
    · rintro ⟨h1, h2⟩
      exact ⟨h2, by rw [contains_eq_decide_mem]; exact decide_eq_true h1⟩
    · rintro ⟨h2, h1⟩
      rw [contains_eq_decide_mem] at h1
      exact ⟨of_decide_eq_true h1, h2⟩
  exact ((List.perm_ext_iff_of_nodup hnd hndOrder).mpr hiff).length_eq

/-! ### C3 -/

/-- C3: on a persisted list whose static names are duplicate-free but not in
template order relative to what the template projection yields, the
Reconciler's view lists the statics in template order followed by the
customs in insertion order, and the single write slot of the pass carries
that view and the recomputed progress of lines 276-278. -/
theorem c3_reorderingCorrected (projectStages view0 : List Stage)
    (hnd : (staticStagesInProject projectStages).Nodup)
    (hch : staticStagesInProject projectStages ≠
      STATIC_PENTEST_STAGES.filter fun t => (projectStages.map Stage.stage).contains t) :
    ((reconcilePass { lastProcessedStagesRef := none, pentestStages := view0 }
        (some projectStages)).state.pentestStages.map Stage.stage =
      (STATIC_PENTEST_STAGES.filter fun t => (projectStages.map Stage.stage).contains t) ++
        (projectStages.filter fun s => !STATIC_PENTEST_STAGES.contains s.stage).map
          Stage.stage) ∧
    ((reconcilePass { lastProcessedStagesRef := none, pentestStages := view0 }
        (some projectStages)).write =
      some ((reconcilePass { lastProcessedStagesRef := none, pentestStages := view0 }
          (some projectStages)).state.pentestStages,
        jsRound ((((updatedStages projectStages).filter fun s => s.done).length : ℚ) /
          ((updatedStages projectStages).length : ℚ) * 100))) := by
  have hlen := staticStages_length_eq hnd
  have hne : staticStagesInProject projectStages ≠ staticStagesInOrder projectStages := by
    rw [staticStagesInOrder_spec]
    exact hch
  have hoc : orderChanged projectStages = true := by
    unfold orderChanged
    rw [zip_any_ne hlen hne]
    simp
  have hpos : projectStages.length > 0 := by
    cases projectStages with
    | nil => exact absurd (by decide) hch
    | cons a l' => simp
  have htotal : (updatedStages projectStages).length = projectStages.length :=
    updatedStages_length hlen
  rw [reconcilePass_processSome (by simp)]
  constructor
  · show (updatedStages projectStages).map Stage.stage = _
    unfold updatedStages
    rw [List.map_append]
    have h1 : (reorderedStaticStages projectStages).map Stage.stage =
        staticStagesInOrder projectStages := rfl
    rw [h1, staticStagesInOrder_spec, customStages_names]
  · show correctiveWrite projectStages = _
    unfold correctiveWrite
    rw [if_pos ⟨by rw [hoc], hpos, hlen⟩]
    dsimp only
    rw [if_pos (show (updatedStages projectStages).length > 0 by omega)]

/-- Witness: C3 applied to the spec's example of statics [B, A] against
template order [A, B], with A = Ticket Assigned and B = Kickoff. -/
theorem c3_witness :
    ((reconcilePass { lastProcessedStagesRef := none, pentestStages := [] }
        (some [{ stage := "Kickoff", done := true, date := none, isStatic := true },
               { stage := "Ticket Assigned", done := false, date := none, isStatic := true }])).state.pentestStages.map
          Stage.stage =
      (STATIC_PENTEST_STAGES.filter fun t =>
        (([{ stage := "Kickoff", done := true, date := none, isStatic := true },
           { stage := "Ticket Assigned", done := false, date := none, isStatic := true }] : List Stage).map
            Stage.stage).contains t) ++
        (([{ stage := "Kickoff", done := true, date := none, isStatic := true },
           { stage := "Ticket Assigned", done := false, date := none, isStatic := true }] : List Stage).filter
            fun s => !STATIC_PENTEST_STAGES.contains s.stage).map Stage.stage) ∧
    ((reconcilePass { lastProcessedStagesRef := none, pentestStages := [] }
        (some [{ stage := "Kickoff", done := true, date := none, isStatic := true },
               { stage := "Ticket Assigned", done := false, date := none, isStatic := true }])).write =
      some ((reconcilePass { lastProcessedStagesRef := none, pentestStages := [] }
          (some [{ stage := "Kickoff", done := true, date := none, isStatic := true },
                 { stage := "Ticket Assigned", done := false, date := none, isStatic := true }])).state.pentestStages,
        jsRound ((((updatedStages
            [{ stage := "Kickoff", done := true, date := none, isStatic := true },
             { stage := "Ticket Assigned", done := false, date := none, isStatic := true }]).filter
              fun s => s.done).length : ℚ) /
          ((updatedStages
            [{ stage := "Kickoff", done := true, date := none, isStatic := true },
             { stage := "Ticket Assigned", done := false, date := none, isStatic := true }]).length : ℚ) * 100))) :=
  c3_reorderingCorrected
    [{ stage := "Kickoff", done := true, date := none, isStatic := true },
     { stage := "Ticket Assigned", done := false, date := none, isStatic := true }] []
    (by decide) (by decide)

/-! ### C1 -/

/-- A persisted list with the first two template stages swapped (a pure
reordering of the statics) and only Ticket Assigned done. -/
def c1Input : List Stage :=
  [{ stage := "Kickoff", done := false, date := none, isStatic := true },
   { stage := "Ticket Assigned", done := true, date := none, isStatic := true },
   { stage := "Accounts Received", done := false, date := none, isStatic := true },
   { stage := "Enumeration", done := false, date := none, isStatic := true },
   { stage := "Manual Testing", done := false, date := none, isStatic := true },
   { stage := "Automated Testing", done := false, date := none, isStatic := true },
   { stage := "Lateral Movement", done := false, date := none, isStatic := true },
   { stage := "Exploitation", done := false, date := none, isStatic := true },
   { stage := "Known CVE", done := false, date := none, isStatic := true },
   { stage := "Compliance", done := false, date := none, isStatic := true },
   { stage := "Reporting", done := false, date := none, isStatic := true },
   { stage := "Shared report 1on1 to PSM", done := false, date := none, isStatic := true },
   { stage := "Uploaded report on Sharepoint", done := false, date := none, isStatic := true },
   { stage := "Sent Emails to Stakeholders", done := false, date := none, isStatic := true },
   { stage := "Last Jira Ticket Closed", done := false, date := none, isStatic := true }]

/-- The candidate view the Reconciler produces for c1Input: the full
template order with only Ticket Assigned done. -/
def c1View : List Stage :=
  [{ stage := "Ticket Assigned", done := true, date := none, isStatic := true },
   { stage := "Kickoff", done := false, date := none, isStatic := true },
   { stage := "Accounts Received", done := false, date := none, isStatic := true },
   { stage := "Enumeration", done := false, date := none, isStatic := true },
   { stage := "Manual Testing", done := false, date := none, isStatic := true },
   { stage := "Automated Testing", done := false, date := none, isStatic := true },
   { stage := "Lateral Movement", done := false, date := none, isStatic := true },
   { stage := "Exploitation", done := false, date := none, isStatic := true },
   { stage := "Known CVE", done := false, date := none, isStatic := true },
   { stage := "Compliance", done := false, date := none, isStatic := true },
   { stage := "Reporting", done := false, date := none, isStatic := true },
   { stage := "Shared report 1on1 to PSM", done := false, date := none, isStatic := true },
   { stage := "Uploaded report on Sharepoint", done := false, date := none, isStatic := true },
   { stage := "Sent Emails to Stakeholders", done := false, date := none, isStatic := true },
   { stage := "Last Jira Ticket Closed", done := false, date := none, isStatic := true }]

lemma c1Input_write :
    (reconcilePass { lastProcessedStagesRef := none, pentestStages := [] }
      (some c1Input)).write = some (c1View, 7) := by
  rw [reconcilePass_processSome (by simp)]
  show correctiveWrite c1Input = some (c1View, 7)
  unfold correctiveWrite
  rw [if_pos ⟨by decide, by decide, by decide⟩]
  dsimp only
  rw [show updatedStages c1Input = c1View from by decide]
  rw [show (c1View.filter fun s => s.done).length = 1 from by decide,
    show c1View.length = 15 from by decide, if_pos (by norm_num)]
  unfold jsRound
  norm_num

lemma c1View_weighted : calculateWeightedProgress c1View = 0 := by
  unfold calculateWeightedProgress
  rw [show prepTotal c1View = 2 from by decide,
    show prepCompleted c1View = 0 from by decide,
    show mainTotal c1View = 7 from by decide,
    show mainCompleted c1View = 0 from by decide,
    show finalTotal c1View = 5 from by decide,
    show finalCompleted c1View = 0 from by decide]
  unfold jsRound
  norm_num

/-- C1 counterexample: on a pure static reordering the corrective write
persists progress 7, the raw completed-over-total percentage of the
candidate view, although the §4.2 weighted progress of that view is 0; the
write therefore does not carry the weighted metric the claim names. -/
theorem c1_counterexample :
    (reconcilePass { lastProcessedStagesRef := none, pentestStages := [] }
      (some c1Input)).write = some (c1View, 7) ∧
    calculateWeightedProgress c1View = 0 ∧ (7 : ℤ) ≠ 0 :=
  ⟨c1Input_write, c1View_weighted, by decide⟩

/-- C1 amended: every corrective write of a reconciliation pass persists the
candidate view together with round(completed / total * 100), the raw
count-based percentage of that view, rather than the §4.2 weighted value. -/
theorem c1_amended (st : ReconcileState) (projectStages v : List Stage) (p : ℤ)
    (hw : (reconcilePass st (some projectStages)).write = some (v, p)) :
    v = (reconcilePass st (some projectStages)).state.pentestStages ∧
    p = jsRound (((v.filter fun s => s.done).length : ℚ) / (v.length : ℚ) * 100) := by
  by_cases hskip : st.lastProcessedStagesRef = some (stagesKey (some projectStages))
  · rw [reconcilePass_skip hskip] at hw
    exact absurd hw (by simp)
  · rw [reconcilePass_processSome hskip] at hw ⊢
    replace hw : correctiveWrite projectStages = some (v, p) := hw
    unfold correctiveWrite at hw
    by_cases hguard : orderChanged projectStages ∧ projectStages.length > 0 ∧
        (staticStagesInProject projectStages).length =
          (staticStagesInOrder projectStages).length
    · rw [if_pos hguard] at hw
      dsimp only at hw
      have hpair := Option.some.inj hw
      have hv : updatedStages projectStages = v := congrArg Prod.fst hpair
      have hp : (if (updatedStages projectStages).length > 0 then
          jsRound ((((updatedStages projectStages).filter fun s => s.done).length : ℚ) /
            ((updatedStages projectStages).length : ℚ) * 100) else 0) = p :=
        congrArg Prod.snd hpair
      have htotal : (updatedStages projectStages).length = projectStages.length :=
        updatedStages_length hguard.2.2
      rw [if_pos (show (updatedStages projectStages).length > 0 by omega)] at hp
      subst hv
      exact ⟨rfl, hp.symm⟩
    · rw [if_neg hguard] at hw
      exact absurd hw (by simp)

/-- Witness: C1 amended applied to the concrete reordered input, discharging
the write hypothesis with the computed corrective write. -/
theorem c1_amended_witness :
    c1View = (reconcilePass { lastProcessedStagesRef := none, pentestStages := [] }
      (some c1Input)).state.pentestStages ∧
    (7 : ℤ) = jsRound (((c1View.filter fun s => s.done).length : ℚ) / (c1View.length : ℚ) * 100) :=
  c1_amended { lastProcessedStagesRef := none, pentestStages := [] } c1Input c1View 7
    c1Input_write

end SecureRAG
